import Mathlib

/-!
Shallow embedding of the mysql2-helper repository (query builder and helper
execution pipeline) together with proofs checking the natural-language
specification against the code.

The `Builder` structure and its operations mirror `src/querybuilder.mjs`
field by field; the `MH` namespace mirrors the `MySQLHelper` class
(query execution with caching and hooks, transactions, batch insert,
hook registration, automatic timestamps).  Statements are
`sql : String` plus an ordered parameter list; JavaScript template-string
concatenation is mirrored by `++`, `Array.prototype.join` by `joinSep`,
and number interpolation by `intToStr`.
-/

namespace Mysql2Helper

/-- join of a list of strings with a separator, mirroring
JavaScript `Array.prototype.join`. -/
def joinSep (sep : String) : List String → String
  | [] => ""
  | [s] => s
  | s :: rest => s ++ sep ++ joinSep sep rest

/-- decimal digit character, used to mirror JavaScript number-to-string
interpolation of integers. -/
def digitChar (d : Nat) : Char :=
  match d with
  | 0 => '0' | 1 => '1' | 2 => '2' | 3 => '3' | 4 => '4'
  | 5 => '5' | 6 => '6' | 7 => '7' | 8 => '8' | _ => '9'

/-- decimal expansion worker, structurally recursive on a fuel argument so
that it reduces inside the kernel; `fuel = n + 1` is always sufficient
because the value shrinks by a factor of ten each step. -/
def natToCharsFuel : Nat → Nat → List Char
  | 0, _ => []
  | fuel + 1, n =>
    if n < 10 then [digitChar n]
    else natToCharsFuel fuel (n / 10) ++ [digitChar (n % 10)]

/-- decimal expansion of a natural number, most significant digit first. -/
def natToChars (n : Nat) : List Char := natToCharsFuel (n + 1) n

/-- decimal rendering of an integer, mirroring JavaScript template-string
interpolation `${n}` of an integral number. -/
def intToStr (n : Int) : String :=
  if n < 0 then ⟨'-' :: natToChars n.natAbs⟩ else ⟨natToChars n.natAbs⟩

/-- count of `?` characters in a string (positional placeholder count). -/
def cQ (s : String) : Nat := s.data.count '?'

/-- a string free of the `?` placeholder character. -/
def noQ (s : String) : Prop := '?' ∉ s.data

instance (s : String) : Decidable (noQ s) := by
  unfold noQ; infer_instance

/-- character-wise uppercase, mirroring `String.prototype.toUpperCase`
on ASCII text. -/
def jsToUpper (s : String) : String := ⟨s.data.map Char.toUpper⟩

/-- mirror of JavaScript `Math.ceil(a / b)` for integral `a` and positive
integral `b` (ceiling of the exact quotient). -/
def mathCeil (a b : Int) : Int := -((-a).ediv b)

/-- a compiled parameterized statement: SQL text plus ordered parameters,
as returned by `QueryBuilder.toSQL`. -/
structure Stmt (α : Type) where
  sql : String
  params : List α
deriving DecidableEq

/-- accumulated intent of `QueryBuilder` (`src/querybuilder.mjs`): the ten
instance fields set by `reset()`. -/
structure Builder (α : Type) where
  _table : String
  _columns : List String
  _where : List String
  _whereParams : List α
  _joins : List String
  _orderBy : List String
  _groupBy : List String
  _having : String
  _limit : Option Int
  _offset : Option Int
deriving DecidableEq

/-- the fresh empty intent produced by `QueryBuilder.reset()`. -/
def emptyIntent {α : Type} : Builder α :=
  ⟨"", ["*"], [], [], [], [], [], "", none, none⟩

namespace Builder

variable {α : Type}

/-- `reset()`: assigns every field its fresh default. -/
def reset (_b : Builder α) : Builder α := emptyIntent

/-- `table(table)`. -/
def table (b : Builder α) (t : String) : Builder α := { b with _table := t }

/-- `select(...columns)`: an empty argument list falls back to `['*']`. -/
def select (b : Builder α) (columns : List String) : Builder α :=
  { b with _columns := if 0 < columns.length then columns else ["*"] }

/-- `where(column, operator, value)`; the two-argument JavaScript overload
merely fixes `operator = '='`, so it is subsumed by this form. -/
def whereCol (b : Builder α) (column operator : String) (value : α) : Builder α :=
  { b with _where := b._where ++ [column ++ " " ++ operator ++ " ?"],
           _whereParams := b._whereParams ++ [value] }

/-- `whereIn(column, values)`. -/
def whereIn (b : Builder α) (column : String) (values : List α) : Builder α :=
  let placeholders := joinSep ", " (values.map fun _ => "?")
  { b with _where := b._where ++ [column ++ " IN (" ++ placeholders ++ ")"],
           _whereParams := b._whereParams ++ values }

/-- `whereNotIn(column, values)`. -/
def whereNotIn (b : Builder α) (column : String) (values : List α) : Builder α :=
  let placeholders := joinSep ", " (values.map fun _ => "?")
  { b with _where := b._where ++ [column ++ " NOT IN (" ++ placeholders ++ ")"],
           _whereParams := b._whereParams ++ values }

/-- `whereBetween(column, min, max)`. -/
def whereBetween (b : Builder α) (column : String) (mn mx : α) : Builder α :=
  { b with _where := b._where ++ [column ++ " BETWEEN ? AND ?"],
           _whereParams := b._whereParams ++ [mn, mx] }

/-- `whereNotBetween(column, min, max)`. -/
def whereNotBetween (b : Builder α) (column : String) (mn mx : α) : Builder α :=
  { b with _where := b._where ++ [column ++ " NOT BETWEEN ? AND ?"],
           _whereParams := b._whereParams ++ [mn, mx] }

/-- `whereNull(column)`. -/
def whereNull (b : Builder α) (column : String) : Builder α :=
  { b with _where := b._where ++ [column ++ " IS NULL"] }

/-- `whereNotNull(column)`. -/
def whereNotNull (b : Builder α) (column : String) : Builder α :=
  { b with _where := b._where ++ [column ++ " IS NOT NULL"] }

/-- `whereLike(column, pattern)`. -/
def whereLike (b : Builder α) (column : String) (pat : α) : Builder α :=
  { b with _where := b._where ++ [column ++ " LIKE ?"],
           _whereParams := b._whereParams ++ [pat] }

/-- `whereNotLike(column, pattern)`. -/
def whereNotLike (b : Builder α) (column : String) (pat : α) : Builder α :=
  { b with _where := b._where ++ [column ++ " NOT LIKE ?"],
           _whereParams := b._whereParams ++ [pat] }

/-- `orWhere(column, operator, value)`: prefixes `OR` only when a prior
fragment exists, then pushes `` `${pre} ${column} ${operator} ?` ``. -/
def orWhere (b : Builder α) (column operator : String) (value : α) : Builder α :=
  let pre := if 0 < b._where.length then "OR" else ""
  { b with _where := b._where ++ [pre ++ " " ++ column ++ " " ++ operator ++ " ?"],
           _whereParams := b._whereParams ++ [value] }

/-- `whereRaw(condition, params)`. -/
def whereRaw (b : Builder α) (condition : String) (ps : List α) : Builder α :=
  { b with _where := b._where ++ [condition],
           _whereParams := b._whereParams ++ ps }

/-- `join(table, column1, operator, column2)` (INNER JOIN). -/
def join (b : Builder α) (t c1 operator c2 : String) : Builder α :=
  { b with _joins := b._joins ++ ["INNER JOIN " ++ t ++ " ON " ++ c1 ++ " " ++ operator ++ " " ++ c2] }

/-- `leftJoin(table, column1, operator, column2)`. -/
def leftJoin (b : Builder α) (t c1 operator c2 : String) : Builder α :=
  { b with _joins := b._joins ++ ["LEFT JOIN " ++ t ++ " ON " ++ c1 ++ " " ++ operator ++ " " ++ c2] }

/-- `rightJoin(table, column1, operator, column2)`. -/
def rightJoin (b : Builder α) (t c1 operator c2 : String) : Builder α :=
  { b with _joins := b._joins ++ ["RIGHT JOIN " ++ t ++ " ON " ++ c1 ++ " " ++ operator ++ " " ++ c2] }

/-- `crossJoin(table)`. -/
def crossJoin (b : Builder α) (t : String) : Builder α :=
  { b with _joins := b._joins ++ ["CROSS JOIN " ++ t] }

/-- `orderBy(column, direction)`; the JavaScript default direction is
`'ASC'`, and the direction is uppercased. -/
def orderBy (b : Builder α) (column direction : String) : Builder α :=
  { b with _orderBy := b._orderBy ++ [column ++ " " ++ jsToUpper direction] }

/-- `orderByRaw(rawOrder)`. -/
def orderByRaw (b : Builder α) (rawOrder : String) : Builder α :=
  { b with _orderBy := b._orderBy ++ [rawOrder] }

/-- `groupBy(...columns)`. -/
def groupBy (b : Builder α) (columns : List String) : Builder α :=
  { b with _groupBy := b._groupBy ++ columns }

/-- `having(condition)`. -/
def having (b : Builder α) (condition : String) : Builder α :=
  { b with _having := condition }

/-- `limit(limit)`. -/
def limit (b : Builder α) (n : Int) : Builder α := { b with _limit := some n }

/-- `offset(offset)`. -/
def offset (b : Builder α) (n : Int) : Builder α := { b with _offset := some n }

/-- `toSQL()`: compiles accumulated intent to a parameterized statement by
the same sequence of conditional appends as the source. -/
def toSQL (b : Builder α) : Stmt α :=
  let sql := "SELECT " ++ joinSep ", " b._columns ++ " FROM " ++ b._table
  let sql := if 0 < b._joins.length then sql ++ " " ++ joinSep " " b._joins else sql
  let sql := if 0 < b._where.length then sql ++ " WHERE " ++ joinSep " AND " b._where else sql
  let sql := if 0 < b._groupBy.length then sql ++ " GROUP BY " ++ joinSep ", " b._groupBy else sql
  let sql := if b._having ≠ "" then sql ++ " HAVING " ++ b._having else sql
  let sql := if 0 < b._orderBy.length then sql ++ " ORDER BY " ++ joinSep ", " b._orderBy else sql
  let sql := match b._limit with
    | some n => sql ++ " LIMIT " ++ intToStr n
    | none => sql
  let sql := match b._offset with
    | some n => sql ++ " OFFSET " ++ intToStr n
    | none => sql
  ⟨sql, b._whereParams⟩

/-- `get()`: compiles, executes the compiled statement, then resets the
builder.  The embedding returns the issued statement together with the
post-call builder state; the row set comes from the database and is
irrelevant to the builder itself. -/
def get (b : Builder α) : Stmt α × Builder α := (b.toSQL, b.reset)

/-- `first()`: `limit(1)` followed by `get()` (the caller receives row 0
of the response, or null). -/
def first (b : Builder α) : Stmt α × Builder α := (b.limit 1).get

/-- `count()`: saves the column list, substitutes the count aggregate,
runs `first()`, then restores the saved column list on whatever state
`first()` left behind. -/
def count (b : Builder α) : Stmt α × Builder α :=
  let originalColumns := b._columns
  let b1 := { b with _columns := ["COUNT(*) as count"] }
  let (stmt, b2) := b1.first
  (stmt, { b2 with _columns := originalColumns })

/-- pagination metadata returned by `paginate`. -/
structure Pagina where
  currentPage : Int
  perPage : Int
  totalItems : Int
  totalPages : Int
  hasNextPage : Bool
  hasPrevPage : Bool
deriving DecidableEq

/-- `paginate(page, perPage)`: runs `count()`, computes metadata from the
count query's response `totalCount`, then sets limit/offset on the
builder state left by `count()` and runs `get()`.  Returns the two issued
statements (count query, data query), the metadata, and the final state. -/
def paginate (b : Builder α) (page perPage totalCount : Int) :
    (Stmt α × Stmt α) × Pagina × Builder α :=
  let off := (page - 1) * perPage
  let (countStmt, b1) := b.count
  let totalPages := mathCeil totalCount perPage
  let b2 := (b1.limit perPage).offset off
  let (dataStmt, b3) := b2.get
  ((countStmt, dataStmt),
   ⟨page, perPage, totalCount, totalPages, decide (page < totalPages), decide (1 < page)⟩,
   b3)

end Builder

/-! ## C7: the placeholder/parameter invariant over call sequences -/

/-- one non-raw builder call, covering exactly the methods listed by the
claim (`table, select, where, orWhere, whereIn, whereNotIn, whereBetween,
whereNotBetween, whereNull, whereNotNull, whereLike, whereNotLike`, the
four joins, `orderBy, groupBy, limit, offset`). -/
inductive BCall (α : Type) where
  | table (t : String)
  | select (cols : List String)
  | whereCol (column operator : String) (value : α)
  | orWhere (column operator : String) (value : α)
  | whereIn (column : String) (values : List α)
  | whereNotIn (column : String) (values : List α)
  | whereBetween (column : String) (mn mx : α)
  | whereNotBetween (column : String) (mn mx : α)
  | whereNull (column : String)
  | whereNotNull (column : String)
  | whereLike (column : String) (pat : α)
  | whereNotLike (column : String) (pat : α)
  | join (t c1 operator c2 : String)
  | leftJoin (t c1 operator c2 : String)
  | rightJoin (t c1 operator c2 : String)
  | crossJoin (t : String)
  | orderBy (column direction : String)
  | groupBy (cols : List String)
  | limit (n : Int)
  | offset (n : Int)
deriving DecidableEq

/-- interpretation of one call on a builder state, delegating to the
embedded methods. -/
def BCall.apply {α : Type} : BCall α → Builder α → Builder α
  | .table t, b => b.table t
  | .select cols, b => b.select cols
  | .whereCol c o v, b => b.whereCol c o v
  | .orWhere c o v, b => b.orWhere c o v
  | .whereIn c vs, b => b.whereIn c vs
  | .whereNotIn c vs, b => b.whereNotIn c vs
  | .whereBetween c mn mx, b => b.whereBetween c mn mx
  | .whereNotBetween c mn mx, b => b.whereNotBetween c mn mx
  | .whereNull c, b => b.whereNull c
  | .whereNotNull c, b => b.whereNotNull c
  | .whereLike c p, b => b.whereLike c p
  | .whereNotLike c p, b => b.whereNotLike c p
  | .join t c1 o c2, b => b.join t c1 o c2
  | .leftJoin t c1 o c2, b => b.leftJoin t c1 o c2
  | .rightJoin t c1 o c2, b => b.rightJoin t c1 o c2
  | .crossJoin t, b => b.crossJoin t
  | .orderBy c d, b => b.orderBy c d
  | .groupBy cols, b => b.groupBy cols
  | .limit n, b => b.limit n
  | .offset n, b => b.offset n

/-- the text-bound arguments of a call are free of the `?` character
(values are bound as parameters, never spliced into the text, so they are
unconstrained). -/
def BCall.argsOK {α : Type} : BCall α → Prop
  | .table t => cQ t = 0
  | .select cols => ∀ s ∈ cols, cQ s = 0
  | .whereCol c o _ => cQ c = 0 ∧ cQ o = 0
  | .orWhere c o _ => cQ c = 0 ∧ cQ o = 0
  | .whereIn c _ => cQ c = 0
  | .whereNotIn c _ => cQ c = 0
  | .whereBetween c _ _ => cQ c = 0
  | .whereNotBetween c _ _ => cQ c = 0
  | .whereNull c => cQ c = 0
  | .whereNotNull c => cQ c = 0
  | .whereLike c _ => cQ c = 0
  | .whereNotLike c _ => cQ c = 0
  | .join t c1 o c2 => cQ t = 0 ∧ cQ c1 = 0 ∧ cQ o = 0 ∧ cQ c2 = 0
  | .leftJoin t c1 o c2 => cQ t = 0 ∧ cQ c1 = 0 ∧ cQ o = 0 ∧ cQ c2 = 0
  | .rightJoin t c1 o c2 => cQ t = 0 ∧ cQ c1 = 0 ∧ cQ o = 0 ∧ cQ c2 = 0
  | .crossJoin t => cQ t = 0
  | .orderBy c d => cQ c = 0 ∧ cQ d = 0
  | .groupBy cols => ∀ s ∈ cols, cQ s = 0
  | .limit _ => True
  | .offset _ => True

instance {α : Type} (c : BCall α) : Decidable c.argsOK := by
  cases c <;> (dsimp [BCall.argsOK]; infer_instance)

/-- folding a call sequence over a builder state. -/
def applyCalls {α : Type} (cs : List (BCall α)) (b : Builder α) : Builder α :=
  cs.foldl (fun acc c => c.apply acc) b

/-- invariant tying the accumulated intent to the placeholder count: the
predicate fragments carry exactly as many `?` as there are parameters,
and every other text component is free of `?`. -/
def Inv {α : Type} (b : Builder α) : Prop :=
  (b._where.map cQ).sum = b._whereParams.length
  ∧ cQ b._table = 0
  ∧ (∀ s ∈ b._columns, cQ s = 0)
  ∧ (∀ s ∈ b._joins, cQ s = 0)
  ∧ (∀ s ∈ b._orderBy, cQ s = 0)
  ∧ (∀ s ∈ b._groupBy, cQ s = 0)
  ∧ b._having = ""

/-! ## MySQLHelper: caching, hooks and the query execution pipeline
(`src/unnamed/part_001`, class `MySQLHelper`) -/

namespace MH

/-- association-list lookup (JavaScript `Map.get` / object key read on a
map with unique keys). -/
def alookup {β : Type} : List (String × β) → String → Option β
  | [], _ => none
  | (k, v) :: r, key => if k = key then some v else alookup r key

/-- association-list removal of one key (JavaScript `Map.delete`). -/
def aerase {β : Type} : List (String × β) → String → List (String × β)
  | [], _ => []
  | (k, v) :: r, key => if k = key then r else (k, v) :: aerase r key

/-- association-list write (JavaScript `Map.set` / keyed assignment):
replaces the value in place when the key exists, appends otherwise. -/
def aset {β : Type} : List (String × β) → String → β → List (String × β)
  | [], key, v => [(key, v)]
  | (k, w) :: r, key, v => if k = key then (k, v) :: r else (k, w) :: aset r key v

/-- `_getCacheKey(sql, params)`: `` `${sql}:${JSON.stringify(params)}` ``,
with parameters modelled as their serialized forms. -/
def cacheKey (sql : String) (ps : List String) : String :=
  sql ++ ":" ++ "[" ++ joinSep "," ps ++ "]"

/-- one cache entry: stored result and absolute expiry instant. -/
structure CacheEntry (ρ : Type) where
  data : ρ
  expiry : Nat
deriving DecidableEq

/-- `_getFromCache(key)`: on an entry with `now < expiry` return its data
and leave the cache unchanged; an expired entry is deleted on the lookup;
a missing key returns null. -/
def _getFromCache {ρ : Type} (cache : List (String × CacheEntry ρ)) (key : String)
    (now : Nat) : Option ρ × List (String × CacheEntry ρ) :=
  match alookup cache key with
  | some e => if now < e.expiry then (some e.data, cache) else (none, aerase cache key)
  | none => (none, cache)

/-- `_setCache(key, data, ttl)`: stores the data with expiry `now + ttl`. -/
def _setCache {ρ : Type} (cache : List (String × CacheEntry ρ)) (key : String)
    (data : ρ) (ttl now : Nat) : List (String × CacheEntry ρ) :=
  aset cache key ⟨data, now + ttl⟩

/-- configuration slice of the helper relevant to `query`. -/
structure QueryCfg where
  cacheEnabled : Bool
  cacheTTL : Nat
  logQueries : Bool
deriving DecidableEq

/-- per-call options of `query`: `cacheOff` mirrors `options.cache ===
false`, `cacheTTLOpt` mirrors the optional `options.cacheTTL` override. -/
structure QueryOpts where
  cacheOff : Bool
  cacheTTLOpt : Option Nat
deriving DecidableEq

/-- the three hook stages that surround statement execution. -/
inductive HookStage where
  | beforeQuery
  | afterQuery
  | onError
deriving DecidableEq

/-- telemetry signals emitted by `query`. -/
inductive QEvent where
  | cacheHit
  | queryExecuted
  | queryError
deriving DecidableEq

/-- mutable helper state touched by `query`: the cache map and the query
log. -/
structure QState (ρ : Type) where
  cache : List (String × CacheEntry ρ)
  queryLog : List (String × List String)
deriving DecidableEq

/-- `_runHooks(stage)`: awaits each callback in registration order; a
callback outcome `some e` is a throw with message `e`.  Returns the
indices of the callbacks that were invoked (the throwing one included)
and the first error, which aborts the remaining callbacks. -/
def runHooksSeq : List (Option String) → Nat → List Nat × Option String
  | [], _ => ([], none)
  | o :: rest, i =>
    match o with
    | some e => ([i], some e)
    | none =>
      let (inv, err) := runHooksSeq rest (i + 1)
      (i :: inv, err)

/-- the observable outcome of one `query` call. -/
structure QueryRun (ρ : Type) where
  state : QState ρ
  result : Except String ρ
  events : List QEvent
  invoked : List (HookStage × Nat)

/-- catch branch of `query`: run the `onError` hooks (an error thrown by a
hook propagates as-is, skipping the rest of the branch), emit the
query-error signal and throw `` `Query failed: ${message}` ``. -/
def queryErrorBranch {ρ : Type} (st : QState ρ) (invSoFar : List (HookStage × Nat))
    (e : String) (errorOut : List (Option String)) : QueryRun ρ :=
  let (inv2, hErr) := runHooksSeq errorOut 0
  let inv2' := inv2.map fun i => (HookStage.onError, i)
  match hErr with
  | some h2 => ⟨st, .error h2, [], invSoFar ++ inv2'⟩
  | none => ⟨st, .error ("Query failed: " ++ e), [QEvent.queryError], invSoFar ++ inv2'⟩

/-- body of `query` past the cache check: beforeQuery hooks, statement
execution (its outcome is the `execResult` input, the database being
external), query logging, afterQuery hooks, cache write, telemetry.  Any
failure routes to `queryErrorBranch`. -/
def queryMain {ρ : Type} (cfg : QueryCfg) (opts : QueryOpts) (st : QState ρ)
    (sql : String) (ps : List String) (now : Nat) (execResult : Except String ρ)
    (beforeOut afterOut errorOut : List (Option String)) : QueryRun ρ :=
  let (invB, bErr) := runHooksSeq beforeOut 0
  let invB' := invB.map fun i => (HookStage.beforeQuery, i)
  match bErr with
  | some e => queryErrorBranch st invB' e errorOut
  | none =>
    match execResult with
    | .error e => queryErrorBranch st invB' e errorOut
    | .ok rows =>
      let log1 := if cfg.logQueries then st.queryLog ++ [(sql, ps)] else st.queryLog
      let (invA, aErr) := runHooksSeq afterOut 0
      let invA' := invA.map fun i => (HookStage.afterQuery, i)
      match aErr with
      | some e => queryErrorBranch ⟨st.cache, log1⟩ (invB' ++ invA') e errorOut
      | none =>
        let st2 : QState ρ :=
          if cfg.cacheEnabled && !opts.cacheOff then
            ⟨_setCache st.cache (cacheKey sql ps) rows
               (opts.cacheTTLOpt.getD cfg.cacheTTL) now, log1⟩
          else ⟨st.cache, log1⟩
        ⟨st2, .ok rows, [QEvent.queryExecuted], invB' ++ invA'⟩

/-- `query(sql, params, options)`: cache check first (when caching is
enabled globally and not disabled for the call), returning the cached
value with a cache-hit signal and no hook invocations on a live hit;
otherwise the main execution path. -/
def query {ρ : Type} (cfg : QueryCfg) (opts : QueryOpts) (st : QState ρ)
    (sql : String) (ps : List String) (now : Nat) (execResult : Except String ρ)
    (beforeOut afterOut errorOut : List (Option String)) : QueryRun ρ :=
  if cfg.cacheEnabled && !opts.cacheOff then
    match _getFromCache st.cache (cacheKey sql ps) now with
    | (some data, c1) => ⟨⟨c1, st.queryLog⟩, .ok data, [QEvent.cacheHit], []⟩
    | (none, c1) =>
        queryMain cfg opts ⟨c1, st.queryLog⟩ sql ps now execResult beforeOut afterOut errorOut
  else queryMain cfg opts st sql ps now execResult beforeOut afterOut errorOut

/-! ## Transactions (`MySQLHelper.transaction` / `beginTransaction`) -/

/-- environment of one `transaction(callback)` run: the callback outcome,
whether commit or rollback themselves throw (carrying the thrown
message), and whether the helper runs in pool mode (`this.pool` truthy). -/
structure TxEnv (ρ : Type) where
  cbResult : Except String ρ
  commitFails : Option String
  rollbackFails : Option String
  hasPool : Bool

/-- transaction lifecycle signals. -/
inductive TxEvent where
  | started
  | committed
  | rolledBack (msg : String)
deriving DecidableEq

/-- observables of one `transaction` run. -/
structure TxRun (ρ : Type) where
  events : List TxEvent
  commitCalled : Bool
  rollbackCalled : Bool
  released : Bool
  outcome : Except String ρ

/-- `transaction(callback)`: begin (emitting the started signal), try the
callback then commit; any error caught — from the callback or from commit
itself — triggers rollback, the rolled-back signal and a wrapped rethrow
`` `Transaction failed: ${message}` ``; an error thrown by rollback
itself propagates instead, skipping the signal and the wrap.  The
`finally` block releases the connection exactly when a pool is in use. -/
def transaction {ρ : Type} (env : TxEnv ρ) : TxRun ρ :=
  match env.cbResult with
  | .ok r =>
    match env.commitFails with
    | none => ⟨[.started, .committed], true, false, env.hasPool, .ok r⟩
    | some ce =>
      match env.rollbackFails with
      | none => ⟨[.started, .rolledBack ce], true, true, env.hasPool,
          .error ("Transaction failed: " ++ ce)⟩
      | some re => ⟨[.started], true, true, env.hasPool, .error re⟩
  | .error e =>
    match env.rollbackFails with
    | none => ⟨[.started, .rolledBack e], false, true, env.hasPool,
        .error ("Transaction failed: " ++ e)⟩
    | some re => ⟨[.started], false, true, env.hasPool, .error re⟩

/-! ## Batch insert (`MySQLHelper.batchInsert`) -/

/-- `Math.ceil(n / c)` on natural inputs with `c > 0`. -/
def jsCeilNat (n c : Nat) : Nat := (n + c - 1) / c

/-- one `batchProgress` signal payload. -/
structure BatchProgress where
  current : Nat
  total : Nat
  processedRows : Nat
deriving DecidableEq

/-- aggregate result of `batchInsert`. -/
structure BatchResult where
  totalBatches : Nat
  totalInserted : Nat
deriving DecidableEq

/-- `batchInsert(table, dataArray, batchSize)`: rejects an empty array,
splits the array into `Math.ceil(n / batchSize)` consecutive slices,
drives each slice through one multi-row insert (`insertMany`, external
round trip) strictly in order, emitting one progress signal after each
slice, and returns the chunk count and the input length as the totals.
The embedding returns the slices in execution order, the emitted progress
signals in order, and the aggregate result. -/
def batchInsert {α : Type} (items : List α) (batchSize : Nat) :
    Except String (List (List α) × List BatchProgress × BatchResult) :=
  if items.length = 0 then .error "Data array cannot be empty"
  else
    let batches := jsCeilNat items.length batchSize
    let res := (List.range batches).foldl
      (fun acc i =>
        let start := i * batchSize
        let stop := min (start + batchSize) items.length
        (acc.1 ++ [(items.drop start).take (stop - start)],
         acc.2 ++ [⟨i + 1, batches, stop⟩]))
      ([], [])
    .ok (res.1, res.2, ⟨batches, items.length⟩)

/-! ## Hook registration (`MySQLHelper.addHook`, constructor hooks map) -/

/-- the stage names initialized in the `MySQLHelper` constructor's
`this.hooks` object. -/
def validStages : List String :=
  ["beforeQuery", "afterQuery", "onError", "beforeInsert", "afterInsert",
   "beforeUpdate", "afterUpdate"]

/-- the constructor's hooks map: each stage carries an initially empty
ordered callback list. -/
def initialHooks (κ : Type) : List (String × List κ) :=
  [("beforeQuery", []), ("afterQuery", []), ("onError", []), ("beforeInsert", []),
   ("afterInsert", []), ("beforeUpdate", []), ("afterUpdate", [])]

/-- `addHook(hookName, callback)`: when `this.hooks[hookName]` exists (an
array is always truthy) the callback is pushed onto that stage's list;
otherwise `Invalid hook name: ...` is thrown and nothing is stored. -/
def addHook {κ : Type} (hooks : List (String × List κ)) (hookName : String) (cb : κ) :
    Except String (List (String × List κ)) :=
  match alookup hooks hookName with
  | some l => .ok (aset hooks hookName (l ++ [cb]))
  | none => .error ("Invalid hook name: " ++ hookName)

/-! ## Automatic timestamps (`MySQLHelper._addTimestamps`, `insert`,
`update`) -/

/-- JavaScript-style values as they occur in data objects, with the
truthiness relevant to `!data[col]`. -/
inductive JVal where
  | vNull
  | vUndefined
  | vBool (b : Bool)
  | vNum (n : Int)
  | vStr (s : String)
  | vDate (t : Nat)
deriving DecidableEq

/-- JavaScript truthiness: `null`, `undefined`, `false`, `0` and `""` are
falsy; a Date object is always truthy. -/
def truthy : JVal → Bool
  | .vNull => false
  | .vUndefined => false
  | .vBool b => b
  | .vNum n => n != 0
  | .vStr s => s != ""
  | .vDate _ => true

/-- object key read `data[col]`: a missing key reads as `undefined`. -/
def getKey (o : List (String × JVal)) (k : String) : JVal :=
  match alookup o k with
  | some v => v
  | none => .vUndefined

/-- timestamp-relevant configuration: the enable flag and the two column
names. -/
structure TsCfg where
  timestamps : Bool
  createdAtColumn : String
  updatedAtColumn : String
deriving DecidableEq

/-- `_addTimestamps(data, isUpdate)`: with timestamps disabled the data
object itself is returned; otherwise a spread copy is taken and the
created-at column (inserts only) and updated-at column are set to `now`
exactly when the caller's value is falsy (`!data[col]`). -/
def _addTimestamps (cfg : TsCfg) (data : List (String × JVal)) (isUpdate : Bool)
    (now : Nat) : List (String × JVal) :=
  if cfg.timestamps = false then data
  else
    let td := data
    let td := if !isUpdate && cfg.createdAtColumn != "" && !truthy (getKey data cfg.createdAtColumn)
      then aset td cfg.createdAtColumn (.vDate now) else td
    let td := if cfg.updatedAtColumn != "" && !truthy (getKey data cfg.updatedAtColumn)
      then aset td cfg.updatedAtColumn (.vDate now) else td
    td

/-- heap rendering of `_addTimestamps`: the caller's object lives at slot
`r`; the spread `{...data}` allocates a fresh object and all writes go to
the fresh slot (with timestamps disabled the same reference is handed
back, still without writing). -/
def _addTimestampsAlloc (cfg : TsCfg) (heap : List (List (String × JVal))) (r : Nat)
    (isUpdate : Bool) (now : Nat) : List (List (String × JVal)) × Nat :=
  let data := heap.getD r []
  if cfg.timestamps = false then (heap, r)
  else (heap ++ [_addTimestamps cfg data isUpdate now], heap.length)

/-- `insert(table, data, options)`: compiles
`INSERT INTO t (cols) VALUES (?...)` from the timestamped copy; the
parameters are the copy's values in key order. -/
def insertStmt (cfg : TsCfg) (tbl : String) (data : List (String × JVal)) (now : Nat)
    (skipTimestamps : Bool) : String × List JVal :=
  let td := if skipTimestamps then data else _addTimestamps cfg data false now
  let columns := td.map Prod.fst
  ("INSERT INTO " ++ tbl ++ " (" ++ joinSep ", " columns ++ ") VALUES ("
     ++ joinSep ", " (columns.map fun _ => "?") ++ ")",
   td.map Prod.snd)

/-- `update(table, data, where, options)`: compiles
`UPDATE t SET k = ? ... WHERE k = ? ...` from the timestamped copy; the
parameters are the copy's values followed by the where-object's values. -/
def updateStmt (cfg : TsCfg) (tbl : String) (data whereObj : List (String × JVal))
    (now : Nat) (skipTimestamps : Bool) : String × List JVal :=
  let td := if skipTimestamps then data else _addTimestamps cfg data true now
  ("UPDATE " ++ tbl ++ " SET " ++ joinSep ", " (td.map fun p => p.1 ++ " = ?")
     ++ " WHERE " ++ joinSep " AND " (whereObj.map fun p => p.1 ++ " = ?"),
   td.map Prod.snd ++ whereObj.map Prod.snd)

end MH

/-! ## Helper lemmas on string joins -/

theorem joinSep_append_singleton (sep x : String) (l : List String) (h : l ≠ []) :
    joinSep sep (l ++ [x]) = joinSep sep l ++ sep ++ x := by
  induction l with
  | nil => exact absurd rfl h
  | cons a as ih =>
    cases as with
    | nil => simp [joinSep]
    | cons b bs =>
      have h2 : joinSep sep ((b :: bs) ++ [x]) = joinSep sep (b :: bs) ++ sep ++ x :=
        ih (by simp)
      calc joinSep sep ((a :: b :: bs) ++ [x])
          = a ++ sep ++ joinSep sep ((b :: bs) ++ [x]) := by simp [joinSep]
        _ = a ++ sep ++ (joinSep sep (b :: bs) ++ sep ++ x) := by rw [h2]
        _ = (a ++ sep ++ joinSep sep (b :: bs)) ++ sep ++ x := by
              simp [String.append_assoc]
        _ = joinSep sep (a :: b :: bs) ++ sep ++ x := by simp [joinSep]

/-! ## Placeholder counting -/

theorem cQ_append (a b : String) : cQ (a ++ b) = cQ a + cQ b := by
  cases a with
  | mk da =>
    cases b with
    | mk db =>
      show (da ++ db).count '?' = da.count '?' + db.count '?'
      exact List.count_append ..

theorem cQ_eq_zero_iff (s : String) : cQ s = 0 ↔ noQ s := by
  simp [cQ, noQ, List.count_eq_zero]

theorem cQ_joinSep (sep : String) (hsep : cQ sep = 0) (l : List String) :
    cQ (joinSep sep l) = (l.map cQ).sum := by
  induction l with
  | nil => rfl
  | cons a as ih =>
    cases as with
    | nil => simp [joinSep]
    | cons b bs =>
      simp only [joinSep, cQ_append, hsep, List.map_cons, List.sum_cons] at ih ⊢
      omega

theorem cQ_joinSep_zero (sep : String) (hsep : cQ sep = 0) (l : List String)
    (h : ∀ s ∈ l, cQ s = 0) : cQ (joinSep sep l) = 0 := by
  rw [cQ_joinSep sep hsep l]
  exact List.sum_eq_zero (by simpa using h)

theorem digitChar_ne_qmark (d : Nat) : digitChar d ≠ '?' := by
  unfold digitChar
  split <;> decide

theorem natToCharsFuel_ne_qmark (fuel n : Nat) (c : Char)
    (h : c ∈ natToCharsFuel fuel n) : c ≠ '?' := by
  induction fuel generalizing n with
  | zero => simp [natToCharsFuel] at h
  | succ fuel ih =>
    unfold natToCharsFuel at h
    by_cases hn : n < 10
    · simp [hn] at h
      exact h ▸ digitChar_ne_qmark n
    · simp [hn] at h
      rcases h with h | h
      · exact ih _ h
      · exact h ▸ digitChar_ne_qmark (n % 10)

theorem cQ_intToStr (n : Int) : cQ (intToStr n) = 0 := by
  have hbody : ∀ m : Nat, '?' ∉ natToChars m := fun m hmem =>
    natToCharsFuel_ne_qmark (m + 1) m '?' hmem rfl
  unfold intToStr
  split
  · show (('-' :: natToChars n.natAbs).count '?') = 0
    rw [List.count_cons_of_ne (by decide), List.count_eq_zero]
    exact hbody n.natAbs
  · show ((natToChars n.natAbs).count '?') = 0
    rw [List.count_eq_zero]
    exact hbody n.natAbs

theorem toUpper_ne_qmark (c : Char) (h : c ≠ '?') : c.toUpper ≠ '?' := by
  show (if c.toNat ≥ 97 ∧ c.toNat ≤ 122 then Char.ofNat (c.toNat - 32) else c) ≠ '?'
  split
  · next hc =>
    obtain ⟨h1, h2⟩ := hc
    set n := c.toNat with hn
    clear_value n
    interval_cases n <;> decide
  · exact h

theorem cQ_jsToUpper (s : String) (h : cQ s = 0) : cQ (jsToUpper s) = 0 := by
  rw [cQ_eq_zero_iff] at h ⊢
  intro hmem
  have hmem2 : '?' ∈ s.data.map Char.toUpper := hmem
  obtain ⟨c, hc, he⟩ := List.mem_map.mp hmem2
  by_cases hcq : c = '?'
  · exact h (hcq ▸ hc)
  · exact toUpper_ne_qmark c hcq he

/-! ## C1, C2, C6 -/

/-- C1: the spec asserts that `paginate(page=2, perPage=10)` on a builder
carrying a filter issues a count query and a data query with the same
predicate and join state, returning the filtered page.  In the code,
`count()` goes through `first()`/`get()`, which resets the builder, so the
data query is compiled from the fresh empty intent: it has no table, no
WHERE and no joins, while the count query does carry the filter.  This
theorem evaluates the code at the failing input
`table('users').where('active','=',1).paginate(2, 10)` with a 25-row count
response: the count statement is filtered, the data statement is
`SELECT * FROM  LIMIT 10 OFFSET 10` (no table, no predicate), even though
the metadata fields are the claimed ones. -/
theorem c1_paginate_loses_filter :
    (((Mysql2Helper.emptyIntent.table "users").whereCol "active" "=" (1 : Int)).paginate 2 10 25).1.1.sql
        = "SELECT COUNT(*) as count FROM users WHERE active = ? LIMIT 1"
    ∧ (((Mysql2Helper.emptyIntent.table "users").whereCol "active" "=" (1 : Int)).paginate 2 10 25).1.1.params
        = [1]
    ∧ (((Mysql2Helper.emptyIntent.table "users").whereCol "active" "=" (1 : Int)).paginate 2 10 25).1.2.sql
        = "SELECT * FROM  LIMIT 10 OFFSET 10"
    ∧ (((Mysql2Helper.emptyIntent.table "users").whereCol "active" "=" (1 : Int)).paginate 2 10 25).1.2.params
        = []
    ∧ (((Mysql2Helper.emptyIntent.table "users").whereCol "active" "=" (1 : Int)).paginate 2 10 25).2.1
        = ⟨2, 10, 25, 3, true, true⟩ := by
  refine ⟨by decide, by decide, by decide, by decide, by decide⟩

/-- C2 counterexample: the claim says every terminal operation leaves the
builder equal to the fresh empty intent.  After `count()` on a builder
whose column list was `['name']`, the column list is restored to
`['name']`, not reset to `['*']`, so the post-state differs from the
fresh empty intent. -/
theorem c2_count_restores_columns :
    ((((Mysql2Helper.emptyIntent : Mysql2Helper.Builder Int).table "t").select ["name"]).count).2
      ≠ (Mysql2Helper.emptyIntent : Mysql2Helper.Builder Int) := by
  decide

/-- C2 (amended): after `get`, `first` and `paginate` the builder state
equals the fresh empty intent; after `count` every component equals the
fresh empty intent except the column list, which is restored to its
pre-call value; and a second `get()` without rebuilding compiles the
empty default statement `SELECT * FROM `. -/
theorem c2_terminal_ops_reset (α : Type) (b : Mysql2Helper.Builder α)
    (page perPage totalCount : Int) :
    (b.get).2 = Mysql2Helper.emptyIntent
    ∧ (b.first).2 = Mysql2Helper.emptyIntent
    ∧ (b.count).2 = { Mysql2Helper.emptyIntent with _columns := b._columns }
    ∧ (b.paginate page perPage totalCount).2.2 = Mysql2Helper.emptyIntent
    ∧ ((Mysql2Helper.emptyIntent : Mysql2Helper.Builder α).get).1.sql = "SELECT * FROM " := by
  exact ⟨rfl, rfl, rfl, rfl, rfl⟩

/-- C6 counterexample: the claim says `orWhere` with no prior fragment
emits the clause as if it were a plain predicate; in the code the empty
prefix still contributes its separating space, so the compiled statement
differs from the plain `where` statement (`WHERE  a = ?` with two spaces
versus `WHERE a = ?`). -/
theorem c6_orWhere_empty_not_plain :
    (((Mysql2Helper.emptyIntent : Mysql2Helper.Builder Int).table "t").orWhere "a" "=" 1).toSQL
      ≠ (((Mysql2Helper.emptyIntent : Mysql2Helper.Builder Int).table "t").whereCol "a" "=" 1).toSQL := by
  decide

/-- C6 (amended): `orWhere` never raises an error and never loses the
fragment.  With at least one prior fragment it appends the OR-prefixed
fragment `OR c o ?`, which the compiled WHERE clause joins to the prior
fragments with ` AND `; with no prior fragment the pushed fragment is the
plain predicate preceded by one leftover space (the compiled WHERE clause
is the plain-predicate clause with that extra space, semantically the
same SQL). -/
theorem c6_orWhere_fragment (α : Type) (b : Mysql2Helper.Builder α) (c o : String) (v : α) :
    (b.orWhere c o v)._whereParams = b._whereParams ++ [v]
    ∧ (b._where ≠ [] →
        (b.orWhere c o v)._where = b._where ++ ["OR" ++ " " ++ c ++ " " ++ o ++ " ?"]
        ∧ Mysql2Helper.joinSep " AND " (b.orWhere c o v)._where
            = Mysql2Helper.joinSep " AND " b._where ++ " AND "
                ++ ("OR" ++ " " ++ c ++ " " ++ o ++ " ?"))
    ∧ (b._where = [] →
        (b.orWhere c o v)._where = [" " ++ (c ++ " " ++ o ++ " ?")]
        ∧ (b.whereCol c o v)._where = [c ++ " " ++ o ++ " ?"]
        ∧ Mysql2Helper.joinSep " AND " (b.orWhere c o v)._where
            = " " ++ Mysql2Helper.joinSep " AND " (b.whereCol c o v)._where) := by
  refine ⟨rfl, ?_, ?_⟩
  · intro h
    have hlen : 0 < b._where.length := List.length_pos.mpr h
    constructor
    · simp [Mysql2Helper.Builder.orWhere, hlen]
    · have h1 : (b.orWhere c o v)._where
          = b._where ++ ["OR" ++ " " ++ c ++ " " ++ o ++ " ?"] := by
        simp [Mysql2Helper.Builder.orWhere, hlen]
      rw [h1, Mysql2Helper.joinSep_append_singleton _ _ _ h]
  · intro h
    have hlen : ¬ 0 < b._where.length := by simp [h]
    refine ⟨?_, ?_, ?_⟩
    · simp [Mysql2Helper.Builder.orWhere, hlen, h, String.append_assoc]
    · simp [Mysql2Helper.Builder.whereCol, h]
    · simp [Mysql2Helper.Builder.orWhere, Mysql2Helper.Builder.whereCol, hlen, h,
        Mysql2Helper.joinSep, String.append_assoc]

/-- C6 witness: instantiates `c6_orWhere_fragment` at a builder with no
prior fragment and at one with a prior fragment, discharging each
hypothesis at the concrete input. -/
theorem c6_orWhere_fragment_witness :
    Mysql2Helper.joinSep " AND "
        (((Mysql2Helper.emptyIntent : Mysql2Helper.Builder Int).table "t").orWhere "a" "=" 1)._where
      = " " ++ Mysql2Helper.joinSep " AND "
        (((Mysql2Helper.emptyIntent : Mysql2Helper.Builder Int).table "t").whereCol "a" "=" 1)._where
    ∧ Mysql2Helper.joinSep " AND "
        ((((Mysql2Helper.emptyIntent : Mysql2Helper.Builder Int).table "t").whereCol "a" "=" 1).orWhere "b" "=" 2)._where
      = Mysql2Helper.joinSep " AND "
          ((((Mysql2Helper.emptyIntent : Mysql2Helper.Builder Int).table "t").whereCol "a" "=" 1))._where
        ++ " AND " ++ ("OR" ++ " " ++ "b" ++ " " ++ "=" ++ " ?") :=
  ⟨((c6_orWhere_fragment Int (((Mysql2Helper.emptyIntent : Mysql2Helper.Builder Int).table "t"))
      "a" "=" 1).2.2 (by decide)).2.2,
   ((c6_orWhere_fragment Int ((((Mysql2Helper.emptyIntent : Mysql2Helper.Builder Int).table "t").whereCol "a" "=" 1))
      "b" "=" 2).2.1 (by decide)).2⟩

theorem Inv_emptyIntent {α : Type} : Inv (emptyIntent : Builder α) :=
  ⟨rfl, rfl,
   by intro s hs; simp [emptyIntent] at hs; subst hs; decide,
   by intro s hs; simp [emptyIntent] at hs,
   by intro s hs; simp [emptyIntent] at hs,
   by intro s hs; simp [emptyIntent] at hs, rfl⟩

theorem cQ_placeholderRep (n : Nat) :
    cQ (joinSep ", " (List.replicate n "?")) = n := by
  rw [cQ_joinSep _ (by decide)]
  have h1 : (List.replicate n "?").map cQ = List.replicate n 1 := by
    simp [cQ]
  rw [h1]
  simp [List.sum_replicate]

theorem Inv_apply {α : Type} (c : BCall α) (hc : c.argsOK) (b : Builder α) (hb : Inv b) :
    Inv (c.apply b) := by
  obtain ⟨hw, ht, hcols, hj, ho, hg, hh⟩ := hb
  cases c with
  | table t =>
    exact ⟨hw, hc, hcols, hj, ho, hg, hh⟩
  | select cols =>
    refine ⟨hw, ht, ?_, hj, ho, hg, hh⟩
    by_cases h0 : 0 < cols.length
    · simpa [BCall.apply, Builder.select, h0] using hc
    · simp only [BCall.apply, Builder.select, if_neg h0]
      intro s hs
      simp at hs
      subst hs
      decide
  | whereCol c o v =>
    refine ⟨?_, ht, hcols, hj, ho, hg, hh⟩
    simp [BCall.apply, Builder.whereCol, cQ_append, hc.1, hc.2, hw]
    decide
  | orWhere c o v =>
    refine ⟨?_, ht, hcols, hj, ho, hg, hh⟩
    by_cases h0 : 0 < b._where.length <;>
      · simp [BCall.apply, Builder.orWhere, h0, cQ_append, hc.1, hc.2, hw]
        decide
  | whereIn c vs =>
    have hc' : cQ c = 0 := hc
    have e1 : cQ " IN (" = 0 := by decide
    have e2 : cQ ")" = 0 := by decide
    refine ⟨?_, ht, hcols, hj, ho, hg, hh⟩
    simp [BCall.apply, Builder.whereIn, cQ_append, hc', cQ_placeholderRep, hw, e1, e2]
  | whereNotIn c vs =>
    have hc' : cQ c = 0 := hc
    have e1 : cQ " NOT IN (" = 0 := by decide
    have e2 : cQ ")" = 0 := by decide
    refine ⟨?_, ht, hcols, hj, ho, hg, hh⟩
    simp [BCall.apply, Builder.whereNotIn, cQ_append, hc', cQ_placeholderRep, hw, e1, e2]
  | whereBetween c mn mx =>
    have hc' : cQ c = 0 := hc
    have e1 : cQ " BETWEEN ? AND ?" = 2 := by decide
    refine ⟨?_, ht, hcols, hj, ho, hg, hh⟩
    simp [BCall.apply, Builder.whereBetween, cQ_append, hc', hw, e1]
  | whereNotBetween c mn mx =>
    have hc' : cQ c = 0 := hc
    have e1 : cQ " NOT BETWEEN ? AND ?" = 2 := by decide
    refine ⟨?_, ht, hcols, hj, ho, hg, hh⟩
    simp [BCall.apply, Builder.whereNotBetween, cQ_append, hc', hw, e1]
  | whereNull c =>
    have hc' : cQ c = 0 := hc
    have e1 : cQ " IS NULL" = 0 := by decide
    refine ⟨?_, ht, hcols, hj, ho, hg, hh⟩
    simp [BCall.apply, Builder.whereNull, cQ_append, hc', hw, e1]
  | whereNotNull c =>
    have hc' : cQ c = 0 := hc
    have e1 : cQ " IS NOT NULL" = 0 := by decide
    refine ⟨?_, ht, hcols, hj, ho, hg, hh⟩
    simp [BCall.apply, Builder.whereNotNull, cQ_append, hc', hw, e1]
  | whereLike c p =>
    have hc' : cQ c = 0 := hc
    have e1 : cQ " LIKE ?" = 1 := by decide
    refine ⟨?_, ht, hcols, hj, ho, hg, hh⟩
    simp [BCall.apply, Builder.whereLike, cQ_append, hc', hw, e1]
  | whereNotLike c p =>
    have hc' : cQ c = 0 := hc
    have e1 : cQ " NOT LIKE ?" = 1 := by decide
    refine ⟨?_, ht, hcols, hj, ho, hg, hh⟩
    simp [BCall.apply, Builder.whereNotLike, cQ_append, hc', hw, e1]
  | join t c1 o c2 =>
    refine ⟨hw, ht, hcols, ?_, ho, hg, hh⟩
    intro s hs
    simp [BCall.apply, Builder.join] at hs
    rcases hs with hs | hs
    · exact hj s hs
    · subst hs
      obtain ⟨h1, h2, h3, h4⟩ := hc
      simp [cQ_append, h1, h2, h3, h4]
      decide
  | leftJoin t c1 o c2 =>
    refine ⟨hw, ht, hcols, ?_, ho, hg, hh⟩
    intro s hs
    simp [BCall.apply, Builder.leftJoin] at hs
    rcases hs with hs | hs
    · exact hj s hs
    · subst hs
      obtain ⟨h1, h2, h3, h4⟩ := hc
      simp [cQ_append, h1, h2, h3, h4]
      decide
  | rightJoin t c1 o c2 =>
    refine ⟨hw, ht, hcols, ?_, ho, hg, hh⟩
    intro s hs
    simp [BCall.apply, Builder.rightJoin] at hs
    rcases hs with hs | hs
    · exact hj s hs
    · subst hs
      obtain ⟨h1, h2, h3, h4⟩ := hc
      simp [cQ_append, h1, h2, h3, h4]
      decide
  | crossJoin t =>
    have hc' : cQ t = 0 := hc
    refine ⟨hw, ht, hcols, ?_, ho, hg, hh⟩
    intro s hs
    simp [BCall.apply, Builder.crossJoin] at hs
    rcases hs with hs | hs
    · exact hj s hs
    · subst hs
      simp [cQ_append, hc']
      decide
  | orderBy c d =>
    refine ⟨hw, ht, hcols, hj, ?_, hg, hh⟩
    intro s hs
    simp [BCall.apply, Builder.orderBy] at hs
    rcases hs with hs | hs
    · exact ho s hs
    · subst hs
      simp [cQ_append, hc.1, cQ_jsToUpper _ hc.2]
      decide
  | groupBy cols =>
    refine ⟨hw, ht, hcols, hj, ho, ?_, hh⟩
    intro s hs
    simp [BCall.apply, Builder.groupBy] at hs
    rcases hs with hs | hs
    · exact hg s hs
    · exact hc s hs
  | limit n =>
    exact ⟨hw, ht, hcols, hj, ho, hg, hh⟩
  | offset n =>
    exact ⟨hw, ht, hcols, hj, ho, hg, hh⟩

theorem Inv_applyCalls {α : Type} (cs : List (BCall α)) (h : ∀ c ∈ cs, c.argsOK)
    (b : Builder α) (hb : Inv b) : Inv (applyCalls cs b) := by
  induction cs generalizing b with
  | nil => exact hb
  | cons c cs ih =>
    exact ih (fun x hx => h x (List.mem_cons_of_mem _ hx))
      (c.apply b) (Inv_apply c (h c (List.mem_cons_self _ _)) b hb)

theorem cQ_toSQL {α : Type} (b : Builder α) (hb : Inv b) :
    cQ b.toSQL.sql = b.toSQL.params.length := by
  obtain ⟨hw, ht, hcols, hj, ho, hg, hh⟩ := hb
  have hc1 : cQ (joinSep ", " b._columns) = 0 := cQ_joinSep_zero _ (by decide) _ hcols
  have hj1 : cQ (joinSep " " b._joins) = 0 := cQ_joinSep_zero _ (by decide) _ hj
  have ho1 : cQ (joinSep ", " b._orderBy) = 0 := cQ_joinSep_zero _ (by decide) _ ho
  have hg1 : cQ (joinSep ", " b._groupBy) = 0 := cQ_joinSep_zero _ (by decide) _ hg
  have hw1 : cQ (joinSep " AND " b._where) = b._whereParams.length := by
    rw [cQ_joinSep _ (by decide)]; exact hw
  have l1 : cQ "SELECT " = 0 := by decide
  have l2 : cQ " FROM " = 0 := by decide
  have l3 : cQ " " = 0 := by decide
  have l4 : cQ " WHERE " = 0 := by decide
  have l5 : cQ " GROUP BY " = 0 := by decide
  have l6 : cQ " ORDER BY " = 0 := by decide
  have l7 : cQ " LIMIT " = 0 := by decide
  have l8 : cQ " OFFSET " = 0 := by decide
  have hB0 : b._where.length = 0 → b._whereParams.length = 0 := by
    intro h0
    have hnil : b._where = [] := List.eq_nil_of_length_eq_zero h0
    rw [hnil] at hw
    simpa using hw.symm
  simp only [Builder.toSQL, hh, ne_eq, not_true_eq_false, if_false]
  rcases b._limit with _ | n <;> rcases b._offset with _ | m <;>
    by_cases hA : 0 < b._joins.length <;>
    by_cases hB : 0 < b._where.length <;>
    by_cases hC : 0 < b._groupBy.length <;>
    by_cases hD : 0 < b._orderBy.length <;>
      simp [hA, hB, hC, hD, cQ_append, hc1, hj1, ho1, hg1, hw1, ht,
        l1, l2, l3, l4, l5, l6, l7, l8, cQ_intToStr] <;>
      exact (hB0 (by omega)).symm

/-- C7 counterexample: the claim quantifies over every call sequence, but
a column name containing the `?` character breaks the correspondence
between placeholder count and parameter count: after
`table('t'); where('a?', '=', 0)` the compiled text
`SELECT * FROM t WHERE a? = ?` contains two `?` while `params` has one
entry. -/
theorem c7_counterexample :
    cQ ((applyCalls [BCall.table "t", BCall.whereCol "a?" "=" (0 : Int)] Mysql2Helper.emptyIntent).toSQL).sql
      ≠ ((applyCalls [BCall.table "t", BCall.whereCol "a?" "=" (0 : Int)] Mysql2Helper.emptyIntent).toSQL).params.length := by
  decide

/-- C7 (amended): for every sequence of the listed non-raw builder calls
whose text-bound string arguments (table and column names, join pieces,
operators, order directions) contain no `?` character, the compiled
statement satisfies: the number of `?` placeholders in the text equals
`params.length`.  Moreover each call appends its fragments and its
parameters together at the end of the accumulated predicate state, the
appended fragment group carrying exactly as many placeholders as appended
parameters — parameter order matches placeholder order. -/
theorem c7_placeholder_invariant (α : Type) (cs : List (BCall α))
    (h : ∀ c ∈ cs, c.argsOK) :
    cQ ((applyCalls cs (emptyIntent : Builder α)).toSQL).sql
        = ((applyCalls cs (emptyIntent : Builder α)).toSQL).params.length
    ∧ ∀ (c : BCall α) (b : Builder α), c.argsOK →
        ∃ fr ps, (c.apply b)._where = b._where ++ fr
          ∧ (c.apply b)._whereParams = b._whereParams ++ ps
          ∧ (fr.map cQ).sum = ps.length := by
  constructor
  · exact cQ_toSQL _ (Inv_applyCalls cs h _ Inv_emptyIntent)
  · intro c b hc
    cases c with
    | table t => exact ⟨[], [], by simp [BCall.apply, Builder.table], by simp [BCall.apply, Builder.table], rfl⟩
    | select cols => exact ⟨[], [], by simp [BCall.apply, Builder.select], by simp [BCall.apply, Builder.select], rfl⟩
    | whereCol c o v =>
      refine ⟨_, [v], rfl, rfl, ?_⟩
      simp [cQ_append, hc.1, hc.2]
      decide
    | orWhere c o v =>
      refine ⟨_, [v], rfl, rfl, ?_⟩
      by_cases h0 : 0 < b._where.length <;>
        · simp [Builder.orWhere, h0, cQ_append, hc.1, hc.2]
          decide
    | whereIn c vs =>
      have hc' : cQ c = 0 := hc
      have e1 : cQ " IN (" = 0 := by decide
      have e2 : cQ ")" = 0 := by decide
      refine ⟨_, vs, rfl, rfl, ?_⟩
      simp [cQ_append, hc', cQ_placeholderRep, e1, e2]
    | whereNotIn c vs =>
      have hc' : cQ c = 0 := hc
      have e1 : cQ " NOT IN (" = 0 := by decide
      have e2 : cQ ")" = 0 := by decide
      refine ⟨_, vs, rfl, rfl, ?_⟩
      simp [cQ_append, hc', cQ_placeholderRep, e1, e2]
    | whereBetween c mn mx =>
      have hc' : cQ c = 0 := hc
      have e1 : cQ " BETWEEN ? AND ?" = 2 := by decide
      refine ⟨_, [mn, mx], rfl, rfl, ?_⟩
      simp [cQ_append, hc', e1]
    | whereNotBetween c mn mx =>
      have hc' : cQ c = 0 := hc
      have e1 : cQ " NOT BETWEEN ? AND ?" = 2 := by decide
      refine ⟨_, [mn, mx], rfl, rfl, ?_⟩
      simp [cQ_append, hc', e1]
    | whereNull c =>
      have hc' : cQ c = 0 := hc
      have e1 : cQ " IS NULL" = 0 := by decide
      refine ⟨_, [], rfl, by simp [BCall.apply, Builder.whereNull], ?_⟩
      simp [cQ_append, hc', e1]
    | whereNotNull c =>
      have hc' : cQ c = 0 := hc
      have e1 : cQ " IS NOT NULL" = 0 := by decide
      refine ⟨_, [], rfl, by simp [BCall.apply, Builder.whereNotNull], ?_⟩
      simp [cQ_append, hc', e1]
    | whereLike c p =>
      have hc' : cQ c = 0 := hc
      have e1 : cQ " LIKE ?" = 1 := by decide
      refine ⟨_, [p], rfl, rfl, ?_⟩
      simp [cQ_append, hc', e1]
    | whereNotLike c p =>
      have hc' : cQ c = 0 := hc
      have e1 : cQ " NOT LIKE ?" = 1 := by decide
      refine ⟨_, [p], rfl, rfl, ?_⟩
      simp [cQ_append, hc', e1]
    | join t c1 o c2 => exact ⟨[], [], by simp [BCall.apply, Builder.join], by simp [BCall.apply, Builder.join], rfl⟩
    | leftJoin t c1 o c2 => exact ⟨[], [], by simp [BCall.apply, Builder.leftJoin], by simp [BCall.apply, Builder.leftJoin], rfl⟩
    | rightJoin t c1 o c2 => exact ⟨[], [], by simp [BCall.apply, Builder.rightJoin], by simp [BCall.apply, Builder.rightJoin], rfl⟩
    | crossJoin t => exact ⟨[], [], by simp [BCall.apply, Builder.crossJoin], by simp [BCall.apply, Builder.crossJoin], rfl⟩
    | orderBy c d => exact ⟨[], [], by simp [BCall.apply, Builder.orderBy], by simp [BCall.apply, Builder.orderBy], rfl⟩
    | groupBy cols => exact ⟨[], [], by simp [BCall.apply, Builder.groupBy], by simp [BCall.apply, Builder.groupBy], rfl⟩
    | limit n => exact ⟨[], [], by simp [BCall.apply, Builder.limit], by simp [BCall.apply, Builder.limit], rfl⟩
    | offset n => exact ⟨[], [], by simp [BCall.apply, Builder.offset], by simp [BCall.apply, Builder.offset], rfl⟩

/-- C7 witness: a thirteen-call sequence covering every clause family,
with the `argsOK` hypothesis discharged by evaluation. -/
theorem c7_placeholder_invariant_witness :
    (∀ c ∈ ([BCall.table "users", BCall.select ["id", "name"],
        BCall.whereCol "active" "=" (1 : Int), BCall.whereIn "id" [1, 2, 3],
        BCall.orWhere "age" "<" 30,
        BCall.leftJoin "orders" "users.id" "=" "orders.user_id",
        BCall.whereBetween "score" 1 10, BCall.whereNull "deleted_at",
        BCall.whereLike "name" 5, BCall.orderBy "id" "desc",
        BCall.groupBy ["role"], BCall.limit 10, BCall.offset 20] : List (BCall Int)),
      c.argsOK)
    ∧ (cQ ((applyCalls [BCall.table "users", BCall.select ["id", "name"],
        BCall.whereCol "active" "=" (1 : Int), BCall.whereIn "id" [1, 2, 3],
        BCall.orWhere "age" "<" 30,
        BCall.leftJoin "orders" "users.id" "=" "orders.user_id",
        BCall.whereBetween "score" 1 10, BCall.whereNull "deleted_at",
        BCall.whereLike "name" 5, BCall.orderBy "id" "desc",
        BCall.groupBy ["role"], BCall.limit 10, BCall.offset 20] (emptyIntent : Builder Int)).toSQL).sql
      = ((applyCalls [BCall.table "users", BCall.select ["id", "name"],
        BCall.whereCol "active" "=" (1 : Int), BCall.whereIn "id" [1, 2, 3],
        BCall.orWhere "age" "<" 30,
        BCall.leftJoin "orders" "users.id" "=" "orders.user_id",
        BCall.whereBetween "score" 1 10, BCall.whereNull "deleted_at",
        BCall.whereLike "name" 5, BCall.orderBy "id" "desc",
        BCall.groupBy ["role"], BCall.limit 10, BCall.offset 20] (emptyIntent : Builder Int)).toSQL).params.length) :=
  ⟨by decide, (c7_placeholder_invariant Int _ (by decide)).1⟩

namespace MH

theorem runHooksSeq_none (out : List (Option String)) (h : ∀ x ∈ out, x = none)
    (i : Nat) : (runHooksSeq out i).2 = none := by
  induction out generalizing i with
  | nil => rfl
  | cons o rest ih =>
    have ho : o = none := h o (List.mem_cons_self _ _)
    subst ho
    have := ih (fun x hx => h x (List.mem_cons_of_mem _ hx)) (i + 1)
    simp [runHooksSeq]
    exact this

theorem alookup_aset_self {β : Type} (c : List (String × β)) (k : String) (v : β) :
    alookup (aset c k v) k = some v := by
  induction c with
  | nil => simp [aset, alookup]
  | cons p r ih =>
    obtain ⟨k', w⟩ := p
    by_cases hk : k' = k
    · subst hk
      simp [aset, alookup]
    · simp [aset, alookup, hk, ih]

theorem queryErrorBranch_no_cacheHit {ρ : Type} (st : QState ρ)
    (inv : List (HookStage × Nat)) (e : String) (errorOut : List (Option String)) :
    (queryErrorBranch st inv e errorOut).events.count QEvent.cacheHit = 0 := by
  unfold queryErrorBranch
  rcases runHooksSeq errorOut 0 with ⟨inv2, hErr⟩
  cases hErr <;> simp

theorem queryMain_no_cacheHit {ρ : Type} (cfg : QueryCfg) (opts : QueryOpts)
    (st : QState ρ) (sql : String) (ps : List String) (now : Nat)
    (execResult : Except String ρ) (bOut aOut eOut : List (Option String)) :
    (queryMain cfg opts st sql ps now execResult bOut aOut eOut).events.count QEvent.cacheHit = 0 := by
  unfold queryMain
  rcases runHooksSeq bOut 0 with ⟨invB, bErr⟩
  cases bErr with
  | some e => exact queryErrorBranch_no_cacheHit ..
  | none =>
    cases execResult with
    | error e => exact queryErrorBranch_no_cacheHit ..
    | ok rows =>
      rcases runHooksSeq aOut 0 with ⟨invA, aErr⟩
      cases aErr with
      | some e => exact queryErrorBranch_no_cacheHit ..
      | none => simp

/-- a first call on a cold key with caching on, a succeeding execution and
non-throwing hooks: the result is the fresh row set, the cache gains the
entry with expiry `now + ttl`, the only event is the query-executed
signal. -/
theorem query_miss_ok {ρ : Type} (cfg : QueryCfg) (opts : QueryOpts) (st : QState ρ)
    (sql : String) (ps : List String) (now : Nat) (rows : ρ)
    (bOut aOut eOut : List (Option String))
    (hen : cfg.cacheEnabled = true) (hoff : opts.cacheOff = false)
    (hmiss : alookup st.cache (cacheKey sql ps) = none)
    (hb : ∀ x ∈ bOut, x = none) (ha : ∀ x ∈ aOut, x = none) :
    (query cfg opts st sql ps now (.ok rows) bOut aOut eOut).state.cache
        = aset st.cache (cacheKey sql ps)
            ⟨rows, now + opts.cacheTTLOpt.getD cfg.cacheTTL⟩
    ∧ (query cfg opts st sql ps now (.ok rows) bOut aOut eOut).result = .ok rows
    ∧ (query cfg opts st sql ps now (.ok rows) bOut aOut eOut).events
        = [QEvent.queryExecuted] := by
  rcases hrb : runHooksSeq bOut 0 with ⟨invB, bErr⟩
  have hbe : bErr = none := by
    have := runHooksSeq_none bOut hb 0
    rw [hrb] at this
    exact this
  subst hbe
  rcases hra : runHooksSeq aOut 0 with ⟨invA, aErr⟩
  have hae : aErr = none := by
    have := runHooksSeq_none aOut ha 0
    rw [hra] at this
    exact this
  subst hae
  refine ⟨?_, ?_, ?_⟩ <;>
    simp [query, queryMain, _getFromCache, _setCache, hmiss, hen, hoff, hrb, hra]

/-- a second call on a live entry: the stored value is returned
immediately, the one event is the cache-hit signal, and no hook callback
is invoked. -/
theorem query_hit {ρ : Type} (cfg : QueryCfg) (opts : QueryOpts) (st : QState ρ)
    (sql : String) (ps : List String) (now : Nat) (execResult : Except String ρ)
    (bOut aOut eOut : List (Option String)) (e : CacheEntry ρ)
    (hen : cfg.cacheEnabled = true) (hoff : opts.cacheOff = false)
    (hfound : alookup st.cache (cacheKey sql ps) = some e)
    (hnow : now < e.expiry) :
    query cfg opts st sql ps now execResult bOut aOut eOut
      = ⟨⟨st.cache, st.queryLog⟩, .ok e.data, [QEvent.cacheHit], []⟩ := by
  simp [query, _getFromCache, hfound, hen, hoff, hnow]

/-- a call that finds an expired entry: the lookup evicts it and the call
proceeds through the main path on the evicted cache. -/
theorem query_expired {ρ : Type} (cfg : QueryCfg) (opts : QueryOpts) (st : QState ρ)
    (sql : String) (ps : List String) (now : Nat) (execResult : Except String ρ)
    (bOut aOut eOut : List (Option String)) (e : CacheEntry ρ)
    (hen : cfg.cacheEnabled = true) (hoff : opts.cacheOff = false)
    (hfound : alookup st.cache (cacheKey sql ps) = some e)
    (hnot : ¬ now < e.expiry) :
    query cfg opts st sql ps now execResult bOut aOut eOut
      = queryMain cfg opts ⟨aerase st.cache (cacheKey sql ps), st.queryLog⟩
          sql ps now execResult bOut aOut eOut := by
  simp [query, _getFromCache, hfound, hen, hoff, hnot]

/-- C3: with caching enabled (and not disabled for the call) on a cold
key, a first succeeding call caches its rows; a second call strictly
inside the TTL window returns precisely the stored rows, emits the
cache-hit signal as its only event — exactly one cache hit across the two
calls — and invokes no hook callback of any stage; a second call at or
after expiry does not hit the cache (the expired entry is evicted by that
very lookup), and when its execution succeeds with non-throwing hooks it
returns the fresh rows and re-caches them with expiry `t1 + ttl`. -/
theorem c3_cache_roundtrip (ρ : Type) (cfg : QueryCfg) (opts : QueryOpts)
    (st0 : QState ρ) (sql : String) (ps : List String) (t0 t1 : Nat) (rows1 : ρ)
    (exec2 : Except String ρ) (bOut1 aOut1 bOut2 aOut2 eOut2 : List (Option String))
    (hen : cfg.cacheEnabled = true) (hoff : opts.cacheOff = false)
    (hmiss : alookup st0.cache (cacheKey sql ps) = none)
    (hb1 : ∀ x ∈ bOut1, x = none) (ha1 : ∀ x ∈ aOut1, x = none) :
    (query cfg opts st0 sql ps t0 (.ok rows1) bOut1 aOut1 []).events.count QEvent.cacheHit = 0
    ∧ (t1 < t0 + opts.cacheTTLOpt.getD cfg.cacheTTL →
        (query cfg opts (query cfg opts st0 sql ps t0 (.ok rows1) bOut1 aOut1 []).state
            sql ps t1 exec2 bOut2 aOut2 eOut2).result = .ok rows1
        ∧ (query cfg opts (query cfg opts st0 sql ps t0 (.ok rows1) bOut1 aOut1 []).state
            sql ps t1 exec2 bOut2 aOut2 eOut2).events = [QEvent.cacheHit]
        ∧ (query cfg opts (query cfg opts st0 sql ps t0 (.ok rows1) bOut1 aOut1 []).state
            sql ps t1 exec2 bOut2 aOut2 eOut2).invoked = [])
    ∧ (t0 + opts.cacheTTLOpt.getD cfg.cacheTTL ≤ t1 →
        _getFromCache (query cfg opts st0 sql ps t0 (.ok rows1) bOut1 aOut1 []).state.cache
            (cacheKey sql ps) t1
          = (none, aerase (query cfg opts st0 sql ps t0 (.ok rows1) bOut1 aOut1 []).state.cache
              (cacheKey sql ps))
        ∧ (query cfg opts (query cfg opts st0 sql ps t0 (.ok rows1) bOut1 aOut1 []).state
            sql ps t1 exec2 bOut2 aOut2 eOut2).events.count QEvent.cacheHit = 0
        ∧ ∀ rows2, exec2 = .ok rows2 → (∀ x ∈ bOut2, x = none) → (∀ x ∈ aOut2, x = none) →
            (query cfg opts (query cfg opts st0 sql ps t0 (.ok rows1) bOut1 aOut1 []).state
                sql ps t1 exec2 bOut2 aOut2 eOut2).result = .ok rows2
            ∧ alookup (query cfg opts (query cfg opts st0 sql ps t0 (.ok rows1) bOut1 aOut1 []).state
                sql ps t1 exec2 bOut2 aOut2 eOut2).state.cache (cacheKey sql ps)
              = some ⟨rows2, t1 + opts.cacheTTLOpt.getD cfg.cacheTTL⟩) := by
  obtain ⟨hcache1, hres1, hev1⟩ :=
    query_miss_ok cfg opts st0 sql ps t0 rows1 bOut1 aOut1 [] hen hoff hmiss hb1 ha1
  have hfound1 : alookup (query cfg opts st0 sql ps t0 (.ok rows1) bOut1 aOut1 []).state.cache
      (cacheKey sql ps) = some ⟨rows1, t0 + opts.cacheTTLOpt.getD cfg.cacheTTL⟩ := by
    rw [hcache1]
    exact alookup_aset_self ..
  refine ⟨by rw [hev1]; rfl, ?_, ?_⟩
  · intro hlt
    have h2 := query_hit cfg opts _ sql ps t1 exec2 bOut2 aOut2 eOut2 _ hen hoff hfound1 hlt
    rw [h2]
    exact ⟨rfl, rfl, rfl⟩
  · intro hge
    have hnot : ¬ t1 < (⟨rows1, t0 + opts.cacheTTLOpt.getD cfg.cacheTTL⟩ : CacheEntry ρ).expiry := by
      show ¬ t1 < t0 + opts.cacheTTLOpt.getD cfg.cacheTTL
      omega
    have hget : _getFromCache (query cfg opts st0 sql ps t0 (.ok rows1) bOut1 aOut1 []).state.cache
        (cacheKey sql ps) t1
        = (none, aerase (query cfg opts st0 sql ps t0 (.ok rows1) bOut1 aOut1 []).state.cache
            (cacheKey sql ps)) := by
      simp only [_getFromCache, hfound1]
      rw [if_neg hnot]
    have key2 := query_expired cfg opts
      (query cfg opts st0 sql ps t0 (.ok rows1) bOut1 aOut1 []).state
      sql ps t1 exec2 bOut2 aOut2 eOut2 _ hen hoff hfound1 hnot
    refine ⟨hget, ?_, ?_⟩
    · rw [key2]
      exact queryMain_no_cacheHit ..
    · intro rows2 hex hb2 ha2
      subst hex
      rcases hrb : runHooksSeq bOut2 0 with ⟨invB, bErr⟩
      have hbe : bErr = none := by
        have := runHooksSeq_none bOut2 hb2 0
        rw [hrb] at this
        exact this
      subst hbe
      rcases hra : runHooksSeq aOut2 0 with ⟨invA, aErr⟩
      have hae : aErr = none := by
        have := runHooksSeq_none aOut2 ha2 0
        rw [hra] at this
        exact this
      subst hae
      rw [key2]
      constructor
      · simp [queryMain, hrb, hra]
      · simp only [queryMain, hrb, hra]
        simp [hen, hoff, _setCache, alookup_aset_self]

/-- C3 witness: a concrete round trip at `ttl = 100`, `t0 = 0`, `t1 = 50`
for the in-window part and `t1 = 100` for the expiry part, hypotheses
discharged by evaluation. -/
theorem c3_cache_roundtrip_witness :
    ((⟨true, 100, false⟩ : QueryCfg).cacheEnabled = true
      ∧ (⟨false, none⟩ : QueryOpts).cacheOff = false
      ∧ alookup (⟨[], []⟩ : QState Nat).cache (cacheKey "SELECT 1" []) = none)
    ∧ ((50 : Nat) < 0 + (Option.getD (none : Option Nat) 100) →
        (query (⟨true, 100, false⟩ : QueryCfg) (⟨false, none⟩ : QueryOpts)
          (query (⟨true, 100, false⟩ : QueryCfg) (⟨false, none⟩ : QueryOpts)
            (⟨[], []⟩ : QState Nat) "SELECT 1" [] 0 (.ok 7) [] [] []).state
          "SELECT 1" [] 50 (.ok 9) [] [] []).result = .ok 7) := by
  refine ⟨⟨rfl, rfl, rfl⟩, ?_⟩
  intro h
  exact ((c3_cache_roundtrip Nat ⟨true, 100, false⟩ ⟨false, none⟩ ⟨[], []⟩
    "SELECT 1" [] 0 50 7 (.ok 9) [] [] [] [] [] rfl rfl rfl
    (by intro x hx; cases hx) (by intro x hx; cases hx)).2.1 h).1

/-- C5: the spec requires that a failing `onError` hook never masks the
original execution error.  In the code `_runHooks('onError', ...)` is
awaited inside the catch block with no protection, so a hook throw
propagates to the caller in place of the wrapped original error.  At the
failing input — execution fails with `dup`, the single registered
`onError` hook throws `hookboom` — the caller receives `hookboom`;
without the throwing hook the same call yields the documented
`Query failed: dup`. -/
theorem c5_onError_hook_masks_original :
    (query (⟨false, 300000, false⟩ : QueryCfg) (⟨false, none⟩ : QueryOpts)
        (⟨[], []⟩ : QState Nat) "INSERT INTO users (email) VALUES (?)" ["a@b.c"] 0
        (.error "dup") [] [] [some "hookboom"]).result = .error "hookboom"
    ∧ (query (⟨false, 300000, false⟩ : QueryCfg) (⟨false, none⟩ : QueryOpts)
        (⟨[], []⟩ : QState Nat) "INSERT INTO users (email) VALUES (?)" ["a@b.c"] 0
        (.error "dup") [] [] [some "hookboom"]).result ≠ .error "Query failed: dup"
    ∧ (query (⟨false, 300000, false⟩ : QueryCfg) (⟨false, none⟩ : QueryOpts)
        (⟨[], []⟩ : QState Nat) "INSERT INTO users (email) VALUES (?)" ["a@b.c"] 0
        (.error "dup") [] [] []).result = .error "Query failed: dup" := by
  refine ⟨rfl, ?_, rfl⟩
  intro h
  have : "hookboom" = "Query failed: dup" := by
    have h2 : Except.error (ε := String) (α := Nat) "hookboom" = .error "Query failed: dup" := h
    injection h2
  simp at this

/-- C4 counterexample: the claim says the coordinator re-raises the
original error; the code throws `new Error` with a wrapping message, so
for a callback failing with `boom` (rollback succeeding, pool mode) the
propagated error is `Transaction failed: boom`, not the original `boom`. -/
theorem c4_wraps_not_reraises :
    (transaction (⟨.error "boom", none, none, true⟩ : TxEnv Nat)).outcome
        = .error ("Transaction failed: boom")
    ∧ (transaction (⟨.error "boom", none, none, true⟩ : TxEnv Nat)).outcome
        ≠ .error "boom" := by
  refine ⟨rfl, ?_⟩
  intro h
  have h2 : Except.error (ε := String) (α := Nat) "Transaction failed: boom"
      = .error "boom" := h
  have h3 : "Transaction failed: boom" = "boom" := by injection h2
  simp at h3

/-- C4 (amended): for every failing callback the coordinator invokes
rollback; when rollback succeeds it emits the rolled-back signal carrying
the error message and raises a new error wrapping the original message
(the failure is never swallowed: the outcome is never a success); the
release step runs exactly when a pool is in use, and it runs
unconditionally on both the commit and the rollback path, even when
commit or rollback itself throws. -/
theorem c4_rollback_release (ρ : Type) (env : TxEnv ρ) :
    (transaction env).released = env.hasPool
    ∧ (∀ e, env.cbResult = .error e →
        (transaction env).rollbackCalled = true
        ∧ (env.rollbackFails = none →
            (transaction env).events = [.started, .rolledBack e]
            ∧ (transaction env).outcome = .error ("Transaction failed: " ++ e))
        ∧ ∀ r, (transaction env).outcome ≠ .ok r) := by
  obtain ⟨cb, cf, rf, hp⟩ := env
  constructor
  · cases cb <;> cases cf <;> cases rf <;> rfl
  · intro e he
    cases cb with
    | ok r => exact absurd he (by simp)
    | error e0 =>
      have he0 : e0 = e := by injection he
      subst he0
      cases rf with
      | none => exact ⟨rfl, fun _ => ⟨rfl, rfl⟩, fun r h => by simp [transaction] at h⟩
      | some re =>
        exact ⟨rfl, fun h => by simp at h, fun r h => by simp [transaction] at h⟩

/-- C4 witness: instantiates `c4_rollback_release` at a concrete failing
callback in pool mode with a succeeding rollback. -/
theorem c4_rollback_release_witness :
    (transaction (⟨.error "boom2", none, none, true⟩ : TxEnv Nat)).released = true
    ∧ (transaction (⟨.error "boom2", none, none, true⟩ : TxEnv Nat)).rollbackCalled = true
    ∧ (transaction (⟨.error "boom2", none, none, true⟩ : TxEnv Nat)).events
        = [.started, .rolledBack "boom2"] :=
  ⟨(c4_rollback_release Nat ⟨.error "boom2", none, none, true⟩).1,
   ((c4_rollback_release Nat ⟨.error "boom2", none, none, true⟩).2 "boom2" rfl).1,
   (((c4_rollback_release Nat ⟨.error "boom2", none, none, true⟩).2 "boom2" rfl).2.1 rfl).1⟩

theorem foldl_pair_append {β γ : Type} (g : Nat → β) (h : Nat → γ) (m : Nat) :
    (List.range m).foldl (fun acc i => (acc.1 ++ [g i], acc.2 ++ [h i])) ([], [])
      = ((List.range m).map g, (List.range m).map h) := by
  suffices hgen : ∀ (acc1 : List β) (acc2 : List γ),
      (List.range m).foldl (fun acc i => (acc.1 ++ [g i], acc.2 ++ [h i])) (acc1, acc2)
        = (acc1 ++ (List.range m).map g, acc2 ++ (List.range m).map h) by
    simpa using hgen [] []
  induction m with
  | zero => intro acc1 acc2; simp
  | succ m ih =>
    intro acc1 acc2
    rw [List.range_succ, List.foldl_append, ih]
    simp

theorem take_sub_min {α : Type} (l : List α) (s c : Nat) :
    (l.drop s).take (min (s + c) l.length - s) = (l.drop s).take c := by
  rcases le_or_lt (s + c) l.length with h | h
  · rw [Nat.min_eq_left h]
    congr 1
    omega
  · rw [Nat.min_eq_right (Nat.le_of_lt h)]
    have h1 : (l.drop s).length = l.length - s := List.length_drop ..
    rw [List.take_of_length_le (by omega), List.take_of_length_le (by omega)]

theorem flatten_chunks {α : Type} (c : Nat) (_hc : 0 < c) :
    ∀ (m : Nat) (l : List α), l.length ≤ c * m →
      ((List.range m).map fun i => (l.drop (i * c)).take c).flatten = l := by
  intro m
  induction m with
  | zero =>
    intro l h
    have : l = [] := List.eq_nil_of_length_eq_zero (by omega)
    subst this
    rfl
  | succ m ih =>
    intro l h
    rw [List.range_succ_eq_map]
    have hmap : ∀ i : Nat, (l.drop ((i + 1) * c)).take c = ((l.drop c).drop (i * c)).take c := by
      intro i
      rw [List.drop_drop]
      congr 1
      rw [Nat.succ_mul, Nat.add_comm]
    have hlen : (l.drop c).length ≤ c * m := by
      have hd : (l.drop c).length = l.length - c := List.length_drop ..
      have he : c * (m + 1) = c * m + c := Nat.mul_succ ..
      omega
    calc ((0 :: (List.range m).map Nat.succ).map fun i => (l.drop (i * c)).take c).flatten
        = l.take c ++ ((List.range m).map fun i => (l.drop ((i + 1) * c)).take c).flatten := by
          simp [Function.comp_def, Nat.succ_eq_add_one]
      _ = l.take c ++ ((List.range m).map fun i => ((l.drop c).drop (i * c)).take c).flatten := by
          simp only [hmap]
      _ = l.take c ++ l.drop c := by rw [ih (l.drop c) hlen]
      _ = l := List.take_append_drop ..

/-- C8: for a non-empty item list and positive chunk size, `batchInsert`
succeeds; the slices are the `Math.ceil(n/c)` consecutive chunks (their
concatenation is the input, each chunk is non-empty with at most `c`
items), the progress signals run `current = 1..ceil(n/c)` each carrying
`total = ceil(n/c)` and `processedRows = min((i+1)*c, n)`, and the
aggregate reports `totalBatches = ceil(n/c)`, `totalInserted = n`. -/
theorem c8_batchInsert_chunks (α : Type) (items : List α) (c : Nat)
    (hne : items ≠ []) (hc : 0 < c) :
    batchInsert items c
      = Except.ok
          ((List.range (jsCeilNat items.length c)).map fun i => (items.drop (i * c)).take c,
           (List.range (jsCeilNat items.length c)).map fun i =>
             (⟨i + 1, jsCeilNat items.length c, min ((i + 1) * c) items.length⟩ : BatchProgress),
           ⟨jsCeilNat items.length c, items.length⟩)
    ∧ ((List.range (jsCeilNat items.length c)).map fun i => (items.drop (i * c)).take c).flatten
        = items
    ∧ (∀ ch ∈ (List.range (jsCeilNat items.length c)).map fun i => (items.drop (i * c)).take c,
        ch ≠ [] ∧ ch.length ≤ c) := by
  have hlen0 : items.length ≠ 0 := fun h => hne (List.eq_nil_of_length_eq_zero h)
  have hdm := Nat.div_add_mod (items.length + c - 1) c
  have hmod : (items.length + c - 1) % c < c := Nat.mod_lt _ hc
  have hceil : items.length ≤ c * jsCeilNat items.length c := by
    unfold jsCeilNat
    omega
  have hlt : ∀ i, i < jsCeilNat items.length c → i * c < items.length := by
    intro i hi
    have h1 : (i + 1) * c ≤ jsCeilNat items.length c * c :=
      Nat.mul_le_mul_right c hi
    have h2 : (i + 1) * c = i * c + c := Nat.succ_mul ..
    have h3 : jsCeilNat items.length c * c = c * jsCeilNat items.length c := Nat.mul_comm ..
    unfold jsCeilNat at h1 h3
    omega
  refine ⟨?_, ?_, ?_⟩
  · have hg : (List.range (jsCeilNat items.length c)).map
          (fun i => (items.drop (i * c)).take (min (i * c + c) items.length - i * c))
        = (List.range (jsCeilNat items.length c)).map
          (fun i => (items.drop (i * c)).take c) :=
      List.map_congr_left fun i _ => take_sub_min ..
    have hh : (List.range (jsCeilNat items.length c)).map
          (fun i => (⟨i + 1, jsCeilNat items.length c,
            min (i * c + c) items.length⟩ : BatchProgress))
        = (List.range (jsCeilNat items.length c)).map
          (fun i => (⟨i + 1, jsCeilNat items.length c,
            min ((i + 1) * c) items.length⟩ : BatchProgress)) :=
      List.map_congr_left fun i _ => by rw [Nat.succ_mul]
    unfold batchInsert
    rw [if_neg hlen0]
    dsimp only
    rw [foldl_pair_append
      (fun i => (items.drop (i * c)).take (min (i * c + c) items.length - i * c))
      (fun i => (⟨i + 1, jsCeilNat items.length c, min (i * c + c) items.length⟩ : BatchProgress)),
      hg, hh]
  · exact flatten_chunks c hc _ items (by rw [Nat.mul_comm] at hceil; rwa [Nat.mul_comm])
  · intro ch hch
    obtain ⟨i, hi, hchi⟩ := List.mem_map.mp hch
    have hmem : i < jsCeilNat items.length c := List.mem_range.mp hi
    subst hchi
    constructor
    · have hdrop : (items.drop (i * c)).length = items.length - i * c := List.length_drop ..
      have hpos : 0 < (items.drop (i * c)).length := by
        have := hlt i hmem
        omega
      intro hnil
      rw [List.take_eq_nil_iff] at hnil
      rcases hnil with h | h
      · omega
      · rw [h] at hpos
        simp at hpos
    · calc ((items.drop (i * c)).take c).length = min c (items.drop (i * c)).length :=
          List.length_take ..
        _ ≤ c := Nat.min_le_left ..

/-- C8 witness: 5000 items with chunk size 1000, hypotheses discharged by
evaluation; the conclusion instantiates to 5 chunks of 1000 with 5
progress signals `current = 1..5` and totals `(5, 5000)`. -/
theorem c8_batchInsert_chunks_witness :
    (List.replicate 5000 () ≠ []) ∧ (0 : Nat) < 1000
    ∧ batchInsert (List.replicate 5000 ()) 1000
      = Except.ok
          ((List.range (jsCeilNat (List.replicate 5000 ()).length 1000)).map fun i =>
             ((List.replicate 5000 ()).drop (i * 1000)).take 1000,
           (List.range (jsCeilNat (List.replicate 5000 ()).length 1000)).map fun i =>
             (⟨i + 1, jsCeilNat (List.replicate 5000 ()).length 1000,
               min ((i + 1) * 1000) (List.replicate 5000 ()).length⟩ : BatchProgress),
           ⟨jsCeilNat (List.replicate 5000 ()).length 1000, (List.replicate 5000 ()).length⟩)
    ∧ jsCeilNat (List.replicate 5000 ()).length 1000 = 5 :=
  have hne : List.replicate 5000 () ≠ [] := fun h => by
    have h2 := congrArg List.length h
    rw [List.length_replicate] at h2
    exact absurd h2 (by decide)
  ⟨hne, by decide,
   (c8_batchInsert_chunks Unit (List.replicate 5000 ()) 1000 hne (by decide)).1,
   by rw [List.length_replicate]; decide⟩

theorem alookup_aset_ne {β : Type} (c : List (String × β)) (k other : String) (v : β)
    (h : other ≠ k) : alookup (aset c k v) other = alookup c other := by
  induction c with
  | nil =>
    simp only [aset, alookup]
    rw [if_neg (fun he : k = other => h he.symm)]
  | cons p r ih =>
    obtain ⟨k', w⟩ := p
    by_cases hk : k' = k
    · subst hk
      simp only [aset, if_pos rfl, alookup]
      rw [if_neg (fun he : k' = other => h he.symm), if_neg (fun he : k' = other => h he.symm)]
    · simp only [aset, if_neg hk, alookup]
      split
      · rfl
      · exact ih

theorem alookup_none_iff {β : Type} (c : List (String × β)) (k : String) :
    alookup c k = none ↔ k ∉ c.map Prod.fst := by
  induction c with
  | nil => simp [alookup]
  | cons p r ih =>
    obtain ⟨k', w⟩ := p
    by_cases h : k' = k
    · subst h
      simp [alookup]
    · simp only [alookup, if_neg h, List.map_cons, List.mem_cons, ih]
      constructor
      · intro hk
        rintro (he | hm)
        · exact h he.symm
        · exact hk hm
      · intro hk hm
        exact hk (Or.inr hm)

/-- C9 counterexample: the claim's stage set contains `beforeMutate` and
`afterMutate`; the code's hooks map does not — registering under
`beforeMutate` throws the invalid-stage error, while `beforeInsert`
(absent from the claim's set) succeeds. -/
theorem c9_counterexample :
    addHook (initialHooks Unit) "beforeMutate" ()
        = .error "Invalid hook name: beforeMutate"
    ∧ addHook (initialHooks Unit) "beforeInsert" ()
        = .ok (aset (initialHooks Unit) "beforeInsert" [()]) := by
  exact ⟨rfl, rfl⟩

/-- C9 (amended): hook registration partitions stage names exactly over
the code's seven stages `{beforeQuery, afterQuery, onError, beforeInsert,
afterInsert, beforeUpdate, afterUpdate}`: for any hooks map carrying
exactly these keys, a valid stage name appends the callback to that
stage's ordered list leaving every other stage untouched, and any other
name fails synchronously with the invalid-stage error, storing nothing. -/
theorem c9_stage_partition (κ : Type) (hooks : List (String × List κ))
    (hkeys : hooks.map Prod.fst = validStages) (name : String) (cb : κ) :
    (name ∈ validStages →
      ∃ l, alookup hooks name = some l
        ∧ addHook hooks name cb = .ok (aset hooks name (l ++ [cb]))
        ∧ alookup (aset hooks name (l ++ [cb])) name = some (l ++ [cb])
        ∧ ∀ other, other ≠ name →
            alookup (aset hooks name (l ++ [cb])) other = alookup hooks other)
    ∧ (name ∉ validStages →
        addHook hooks name cb = .error ("Invalid hook name: " ++ name)) := by
  constructor
  · intro hmem
    have hne : alookup hooks name ≠ none := fun h =>
      ((alookup_none_iff hooks name).mp h) (hkeys ▸ hmem)
    obtain ⟨l, hl⟩ := Option.ne_none_iff_exists'.mp hne
    exact ⟨l, hl, by simp [addHook, hl], alookup_aset_self ..,
      fun other hno => alookup_aset_ne _ _ _ _ hno⟩
  · intro hmem
    have hn : alookup hooks name = none := (alookup_none_iff hooks name).mpr (hkeys ▸ hmem)
    simp [addHook, hn]

/-- C9 witness: instantiates `c9_stage_partition` on the constructor's
hooks map at the valid stage `onError` and the invalid name
`beforeMutate`. -/
theorem c9_stage_partition_witness :
    ((initialHooks Unit).map Prod.fst = validStages)
    ∧ ("onError" ∈ validStages)
    ∧ ("beforeMutate" ∉ validStages)
    ∧ (∃ l, alookup (initialHooks Unit) "onError" = some l
        ∧ addHook (initialHooks Unit) "onError" ()
            = .ok (aset (initialHooks Unit) "onError" (l ++ [()])))
    ∧ addHook (initialHooks Unit) "beforeMutate" ()
        = .error ("Invalid hook name: " ++ "beforeMutate") := by
  refine ⟨rfl, by decide, by decide, ?_, ?_⟩
  · obtain ⟨l, h1, h2, _, _⟩ :=
      (c9_stage_partition Unit (initialHooks Unit) rfl "onError" ()).1 (by decide)
    exact ⟨l, h1, h2⟩
  · exact (c9_stage_partition Unit (initialHooks Unit) rfl "beforeMutate" ()).2 (by decide)

theorem getKey_aset_ne (o : List (String × JVal)) (k other : String) (v : JVal)
    (h : other ≠ k) : getKey (aset o k v) other = getKey o other := by
  unfold getKey
  rw [alookup_aset_ne _ _ _ _ h]

/-- C10 counterexample: the claim says a caller-supplied value for the
created-at column is never overwritten; the guard is JavaScript
truthiness, so the supplied falsy value `0` is overwritten with the
current date, which is what the compiled insert parameters carry. -/
theorem c10_falsy_value_overwritten :
    getKey [("name", JVal.vStr "x"), ("created_at", JVal.vNum 0)] "created_at" = .vNum 0
    ∧ getKey (_addTimestamps ⟨true, "created_at", "updated_at"⟩
        [("name", JVal.vStr "x"), ("created_at", JVal.vNum 0)] false 5) "created_at"
      = .vDate 5
    ∧ getKey (_addTimestamps ⟨true, "created_at", "updated_at"⟩
        [("name", JVal.vStr "x"), ("created_at", JVal.vNum 0)] false 5) "created_at"
      ≠ getKey [("name", JVal.vStr "x"), ("created_at", JVal.vNum 0)] "created_at"
    ∧ (insertStmt ⟨true, "created_at", "updated_at"⟩ "users"
        [("name", JVal.vStr "x"), ("created_at", JVal.vNum 0)] 5 false).2
      = [.vStr "x", .vDate 5, .vDate 5] := by
  exact ⟨rfl, rfl, by decide, rfl⟩

/-- C10 (amended): automatic timestamping never mutates the caller's data
object (the spread copy is a fresh allocation: in the heap rendering the
caller's slot is untouched); every key other than the two timestamp
columns keeps its value in the copy; a caller-supplied TRUTHY value for
the created-at or updated-at column is preserved (a falsy supplied value
— `0`, `''`, `null`, `false` — is treated as absent and overwritten); and
the compiled insert/update parameters are exactly the copy's values (for
update, followed by the where-object's values). -/
theorem c10_timestamps_copy (cfg : TsCfg) (data : List (String × JVal))
    (isUpdate : Bool) (now : Nat) :
    (∀ k, k ≠ cfg.createdAtColumn → k ≠ cfg.updatedAtColumn →
        getKey (_addTimestamps cfg data isUpdate now) k = getKey data k)
    ∧ (truthy (getKey data cfg.createdAtColumn) = true →
        getKey (_addTimestamps cfg data isUpdate now) cfg.createdAtColumn
          = getKey data cfg.createdAtColumn)
    ∧ (truthy (getKey data cfg.updatedAtColumn) = true →
        getKey (_addTimestamps cfg data isUpdate now) cfg.updatedAtColumn
          = getKey data cfg.updatedAtColumn)
    ∧ (∀ (heap : List (List (String × JVal))) (r : Nat), r < heap.length →
        ((_addTimestampsAlloc cfg heap r isUpdate now).1).get? r = heap.get? r)
    ∧ (∀ tbl, (insertStmt cfg tbl data now false).2
        = (_addTimestamps cfg data false now).map Prod.snd)
    ∧ (∀ tbl whereObj, (updateStmt cfg tbl data whereObj now false).2
        = (_addTimestamps cfg data true now).map Prod.snd ++ whereObj.map Prod.snd) := by
  by_cases hts : cfg.timestamps = false
  · refine ⟨?_, ?_, ?_, ?_, fun tbl => rfl, fun tbl w => rfl⟩
    · intro k h1 h2
      simp [_addTimestamps, hts]
    · intro h
      simp [_addTimestamps, hts]
    · intro h
      simp [_addTimestamps, hts]
    · intro heap r hr
      simp [_addTimestampsAlloc, hts]
  · refine ⟨?_, ?_, ?_, ?_, fun tbl => rfl, fun tbl w => rfl⟩
    · intro k h1 h2
      simp only [_addTimestamps, if_neg hts]
      split
      · split
        · rw [getKey_aset_ne _ _ _ _ h2, getKey_aset_ne _ _ _ _ h1]
        · rw [getKey_aset_ne _ _ _ _ h2]
      · split
        · rw [getKey_aset_ne _ _ _ _ h1]
        · rfl
    · intro htr
      have hcond1 : (!isUpdate && cfg.createdAtColumn != ""
          && !truthy (getKey data cfg.createdAtColumn)) = false := by
        rw [htr]
        simp
      simp only [_addTimestamps, if_neg hts, hcond1]
      rw [if_neg (by simp : ¬ ((false : Bool) = true))]
      split
      · next hcond =>
        by_cases he : cfg.updatedAtColumn = cfg.createdAtColumn
        · rw [he, htr] at hcond
          simp at hcond
        · rw [getKey_aset_ne _ _ _ _ (fun h => he h.symm)]
      · rfl
    · intro htr
      have hcond2 : (cfg.updatedAtColumn != ""
          && !truthy (getKey data cfg.updatedAtColumn)) = false := by
        rw [htr]
        simp
      simp only [_addTimestamps, if_neg hts, hcond2]
      rw [if_neg (by simp : ¬ ((false : Bool) = true))]
      split
      · next hcond =>
        by_cases he : cfg.createdAtColumn = cfg.updatedAtColumn
        · rw [he, htr] at hcond
          simp at hcond
        · rw [getKey_aset_ne _ _ _ _ (fun h => he h.symm)]
      · rfl
    · intro heap r hr
      simp only [_addTimestampsAlloc, if_neg hts]
      simp [List.getElem?_append_left hr]

/-- C10 witness: a data object supplying truthy values for both timestamp
columns together with an unrelated key, instantiating
`c10_timestamps_copy` at an insert. -/
theorem c10_timestamps_copy_witness :
    ("name" ≠ "created_at" ∧ "name" ≠ "updated_at"
      ∧ truthy (getKey [("name", JVal.vStr "x"), ("created_at", JVal.vDate 9),
          ("updated_at", JVal.vStr "keep")] "created_at") = true)
    ∧ getKey (_addTimestamps ⟨true, "created_at", "updated_at"⟩
        [("name", JVal.vStr "x"), ("created_at", JVal.vDate 9),
          ("updated_at", JVal.vStr "keep")] false 5) "created_at"
      = getKey [("name", JVal.vStr "x"), ("created_at", JVal.vDate 9),
          ("updated_at", JVal.vStr "keep")] "created_at"
    ∧ getKey (_addTimestamps ⟨true, "created_at", "updated_at"⟩
        [("name", JVal.vStr "x"), ("created_at", JVal.vDate 9),
          ("updated_at", JVal.vStr "keep")] false 5) "name"
      = getKey [("name", JVal.vStr "x"), ("created_at", JVal.vDate 9),
          ("updated_at", JVal.vStr "keep")] "name" := by
  refine ⟨⟨by decide, by decide, by decide⟩, ?_, ?_⟩
  · exact (c10_timestamps_copy ⟨true, "created_at", "updated_at"⟩
      [("name", JVal.vStr "x"), ("created_at", JVal.vDate 9),
        ("updated_at", JVal.vStr "keep")] false 5).2.1 (by decide)
  · exact (c10_timestamps_copy ⟨true, "created_at", "updated_at"⟩
      [("name", JVal.vStr "x"), ("created_at", JVal.vDate 9),
        ("updated_at", JVal.vStr "keep")] false 5).1 "name" (by decide) (by decide)

end MH

end Mysql2Helper
